import Mathlib

/-
  Shallow embedding of the abcsql engine.

  Source files embedded:
  - src/parser.rs   : SQL AST types and the nom-based statement grammar
  - src/storage.rs  : schema/row codec and the file-backed storage engine
  - src/main.rs     : statement execution (WHERE evaluation, projection)

  Conventions:
  - Rust `i64`/`usize` are modelled as `Int`/`Nat` with the explicit range
    checks the Rust parsing functions perform.
  - The file system is modelled as a map from path to file content
    (`FS := String → Option String`); storage operations return the
    resulting file system next to their `Result` value.
  - A Rust panic (out-of-bounds slice index) is modelled as the `.error`
    case of an `Except String` value.
  - Character-level work is done on `List Char` (`String.data`), matching
    Rust's `str::chars` iteration; the inputs exercised are ASCII, where
    Rust's Unicode-aware character classes agree with Lean's ASCII ones.
-/

namespace Abcsql

/-- The backslash character (escape introducer in the row codec). -/
def bslash : Char := Char.ofNat 92

/-- The single-quote character (string literal delimiter in the grammar). -/
def squote : Char := Char.ofNat 39

/-- The newline character. -/
def nlChar : Char := Char.ofNat 10

/-! ## AST types (src/parser.rs lines 12-107) -/

/-- `DataType` from parser.rs: `Int | Varchar(Option<usize>)`. -/
inductive DataType where
  | int : DataType
  | varchar : Option Nat → DataType
deriving DecidableEq

/-- `ColumnDefinition` from parser.rs. -/
structure ColumnDefinition where
  name : String
  dataType : DataType
deriving DecidableEq

/-- `CreateTableStatement` from parser.rs. -/
structure CreateTableStatement where
  tableName : String
  columns : List ColumnDefinition
deriving DecidableEq

/-- `Value` from parser.rs: `Int(i64) | String(String) | Null`. -/
inductive Value where
  | int : Int → Value
  | string : String → Value
  | null : Value
deriving DecidableEq

/-- `InsertStatement` from parser.rs. -/
structure InsertStatement where
  tableName : String
  values : List Value
deriving DecidableEq

/-- `SelectColumn` from parser.rs: `All | Column(String) | QualifiedColumn(String, String)`. -/
inductive SelectColumn where
  | all : SelectColumn
  | column : String → SelectColumn
  | qualifiedColumn : String → String → SelectColumn
deriving DecidableEq

/-- `Operator` from parser.rs. -/
inductive Operator where
  | equals | notEquals | greaterThan | lessThan | greaterThanOrEqual | lessThanOrEqual
deriving DecidableEq

/-- `Expression` from parser.rs: `Column | QualifiedColumn | Literal`. -/
inductive Expression where
  | column : String → Expression
  | qualifiedColumn : String → String → Expression
  | literal : Value → Expression
deriving DecidableEq

/-- `Condition` from parser.rs. -/
structure Condition where
  left : Expression
  operator : Operator
  right : Expression
deriving DecidableEq

/-- `WhereClause` from parser.rs. -/
structure WhereClause where
  condition : Condition
deriving DecidableEq

/-- `JoinType` from parser.rs. -/
inductive JoinType where
  | inner | left | right
deriving DecidableEq

/-- `JoinClause` from parser.rs (`alias` and `on` are Lean keywords,
renamed `aliasName` and `onCond`). -/
structure JoinClause where
  joinType : JoinType
  table : String
  aliasName : Option String
  onCond : Condition
deriving DecidableEq

/-- `SelectStatement` from parser.rs (`from` is a Lean keyword, renamed `fromTable`). -/
structure SelectStatement where
  columns : List SelectColumn
  fromTable : String
  whereClause : Option WhereClause
  joins : List JoinClause
deriving DecidableEq

/-- `SqlStatement` from parser.rs lines 12-17: exactly the three variants
present in the source enum. -/
inductive SqlStatement where
  | createTable : CreateTableStatement → SqlStatement
  | insert : InsertStatement → SqlStatement
  | select : SelectStatement → SqlStatement
deriving DecidableEq

/-- `StorageError` from storage.rs (the `io::Error` payload is kept as text). -/
inductive StorageError where
  | ioError : String → StorageError
  | tableAlreadyExists : String → StorageError
  | tableNotFound : String → StorageError
  | invalidSchema : String → StorageError
  | columnCountMismatch : Nat → Nat → StorageError
  | typeMismatch : String → String → String → StorageError
  | invalidData : String → StorageError
deriving DecidableEq

/-! ## Row codec (src/storage.rs lines 282-351) -/

/-- One step of Rust `str::replace`: leftmost, non-overlapping, the
replacement text is not rescanned.  Structured with fuel so the kernel can
evaluate it; `fuel = l.length` always suffices for a non-empty pattern. -/
def replace_go (pat rep : List Char) : Nat → List Char → List Char
  | 0, l => l
  | _ + 1, [] => []
  | fuel + 1, c :: rest =>
    if pat ≠ [] ∧ pat.isPrefixOf (c :: rest) then
      rep ++ replace_go pat rep fuel ((c :: rest).drop pat.length)
    else
      c :: replace_go pat rep fuel rest

/-- Rust `str::replace` on character lists. -/
def replace_chars (pat rep l : List Char) : List Char :=
  replace_go pat rep l.length l

/-- The escaping done by `serialize_row` for a string payload:
`\` to `\\`, then `|` to `\|`, then newline to `\n`. -/
def escape_chars (l : List Char) : List Char :=
  replace_chars "\n".data "\\n".data
    (replace_chars "|".data "\\|".data
      (replace_chars "\\".data "\\\\".data l))

/-- The unescaping done by `deserialize_row` for a string payload:
`\n` to newline, then `\|` to `|`, then `\\` to `\`
(three sequential global replaces, exactly as in the source). -/
def unescape_chars (l : List Char) : List Char :=
  replace_chars "\\\\".data "\\".data
    (replace_chars "\\|".data "|".data
      (replace_chars "\\n".data "\n".data l))

/-- One field of `serialize_row`: `INT:<digits>`, `STRING:<escaped>` or `NULL`. -/
def serialize_value : Value → List Char
  | Value.int n => "INT:".data ++ (toString n).data
  | Value.string s => "STRING:".data ++ escape_chars s.data
  | Value.null => "NULL".data

/-- `Vec::join("|")` over the serialized fields. -/
def join_pipe : List (List Char) → List Char
  | [] => []
  | [x] => x
  | x :: rest => x ++ '|' :: join_pipe rest

/-- `serialize_row` from storage.rs: fields joined by `|`. -/
def serialize_row (values : List Value) : List Char :=
  join_pipe (values.map serialize_value)

/-- The field-splitting loop of `deserialize_row`: split on unescaped `|`,
treating `\` as introducing a two-character unit; at the end the last
accumulated part is pushed unless both it and the part list are empty. -/
def split_fields (cur : List Char) (parts : List (List Char)) : List Char → List (List Char)
  | [] => if cur ≠ [] ∨ parts ≠ [] then parts ++ [cur] else parts
  | c :: rest =>
    if c = bslash then
      match rest with
      | [] => split_fields (cur ++ [c]) parts []
      | c2 :: rest2 => split_fields (cur ++ [c, c2]) parts rest2
    else if c = '|' then
      split_fields [] (parts ++ [cur]) rest
    else
      split_fields (cur ++ [c]) parts rest

/-- Digit accumulation for integer parsing (base 10). -/
def digits_fold : List Char → Nat → Option Nat
  | [], acc => some acc
  | c :: rest, acc =>
    if c.isDigit then digits_fold rest (acc * 10 + (c.toNat - 48)) else none

/-- A non-empty all-digit run, as a natural number. -/
def digits_to_nat : List Char → Option Nat
  | [] => none
  | l => digits_fold l 0

/-- Rust `str::parse::<i64>()`: optional sign, one or more digits, and the
`i64` range check (overflow is a parse error). -/
def parse_i64_rust (l : List Char) : Option Int :=
  match l with
  | c :: rest =>
    if c = '+' then
      (digits_to_nat rest).bind fun n => if n ≤ 2 ^ 63 - 1 then some (n : Int) else none
    else if c = '-' then
      (digits_to_nat rest).bind fun n => if n ≤ 2 ^ 63 then some (-(n : Int)) else none
    else
      (digits_to_nat l).bind fun n => if n ≤ 2 ^ 63 - 1 then some (n : Int) else none
  | [] => none

/-- One field of `deserialize_row`: `NULL`, `INT:` payload, or `STRING:` payload. -/
def parse_field (part : List Char) : Except StorageError Value :=
  if part = "NULL".data then
    Except.ok Value.null
  else if "INT:".data.isPrefixOf part then
    match parse_i64_rust (part.drop 4) with
    | some n => Except.ok (Value.int n)
    | none => Except.error (StorageError.invalidData ("Invalid integer: " ++ String.mk (part.drop 4)))
  else if "STRING:".data.isPrefixOf part then
    Except.ok (Value.string (String.mk (unescape_chars (part.drop 7))))
  else
    Except.error (StorageError.invalidData ("Invalid value format: " ++ String.mk part))

/-- The field-parsing loop of `deserialize_row` (first error aborts, as
with Rust's `?` operator). -/
def parse_fields : List (List Char) → Except StorageError (List Value)
  | [] => Except.ok []
  | p :: rest =>
    match parse_field p with
    | Except.error e => Except.error e
    | Except.ok v =>
      match parse_fields rest with
      | Except.error e => Except.error e
      | Except.ok vs => Except.ok (v :: vs)

/-- `deserialize_row` from storage.rs. -/
def deserialize_row (s : List Char) : Except StorageError (List Value) :=
  parse_fields (split_fields [] [] s)

/-! ## Storage engine (src/storage.rs lines 28-280)

The storage directory is modelled as a map from file path to file content;
every operation returns the resulting map next to its `Result` value. -/

/-- The file system visible to one `Storage` instance. -/
def FS : Type := String → Option String

/-- Writing (creating or truncating) one file. -/
def fsWrite (fs : FS) (p c : String) : FS :=
  fun q => if q = p then some c else fs q

/-- `schema_path`: `<name>.schema` (the constant data-directory prefix is dropped). -/
def schema_path (table_name : String) : String := table_name ++ ".schema"

/-- `data_path`: `<name>.data`. -/
def data_path (table_name : String) : String := table_name ++ ".data"

/-- `table_exists` from storage.rs: the schema file exists. -/
def table_exists (fs : FS) (table_name : String) : Bool :=
  (fs (schema_path table_name)).isSome

/-- `data_type_to_string` from storage.rs. -/
def data_type_to_string : DataType → String
  | DataType.int => "INT"
  | DataType.varchar (some size) => "VARCHAR(" ++ toString size ++ ")"
  | DataType.varchar none => "VARCHAR"

/-- The schema file written by `create_table`: the table name on line 1,
then one `name:TYPE` line per column. -/
def schema_file_content (stmt : CreateTableStatement) : String :=
  stmt.tableName ++ "\n" ++
    String.join (stmt.columns.map fun col => col.name ++ ":" ++ data_type_to_string col.dataType ++ "\n")

/-- `create_table` from storage.rs: fail if the schema file exists, else
write the schema file and then an empty data file. -/
def create_table (fs : FS) (stmt : CreateTableStatement) : Except StorageError Unit × FS :=
  if (fs (schema_path stmt.tableName)).isSome then
    (Except.error (StorageError.tableAlreadyExists stmt.tableName), fs)
  else
    let fs1 := fsWrite fs (schema_path stmt.tableName) (schema_file_content stmt)
    let fs2 := fsWrite fs1 (data_path stmt.tableName) ""
    (Except.ok (), fs2)

/-- Rust `char::is_whitespace`, restricted to the ASCII whitespace that the
embedded inputs contain. -/
def is_ws (c : Char) : Bool :=
  (c = ' ') || (c = '\t') || (c = '\r') || (c = '\n')

/-- Rust `str::trim` on a character list. -/
def trim_chars (l : List Char) : List Char :=
  ((l.dropWhile is_ws).reverse.dropWhile is_ws).reverse

/-- `line.trim().is_empty()`: a line is blank iff every character is whitespace. -/
def is_blank (l : List Char) : Bool := l.all is_ws

/-- Splitting on one character, every part kept (Rust `str::split`). -/
def split_on_char (sep : Char) : List Char → List (List Char)
  | [] => [[]]
  | c :: rest =>
    if c = sep then
      [] :: split_on_char sep rest
    else
      match split_on_char sep rest with
      | [] => [[c]]
      | h :: t => (c :: h) :: t

/-- Strip one trailing carriage return, as Rust's line iterators do for CRLF. -/
def strip_cr (l : List Char) : List Char :=
  if l.getLast? = some '\r' then l.dropLast else l

/-- Rust `str::lines` / `BufRead::lines`: split on newline, drop the final
empty piece produced by a trailing newline, strip a trailing CR per line. -/
def rust_lines (s : List Char) : List (List Char) :=
  let parts := split_on_char nlChar s
  let parts := if parts.getLast? = some [] then parts.dropLast else parts
  parts.map strip_cr

/-- Rust `str::parse::<usize>()`: optional `+`, digits, 64-bit range check. -/
def parse_usize (l : List Char) : Option Nat :=
  match l with
  | '+' :: rest => (digits_to_nat rest).bind fun n => if n ≤ 2 ^ 64 - 1 then some n else none
  | _ => (digits_to_nat l).bind fun n => if n ≤ 2 ^ 64 - 1 then some n else none

/-- `parse_data_type` from storage.rs (the schema-file TYPE string reader;
the parser module has a grammar rule of the same name, embedded separately
as `parse_data_type_g`). -/
def parse_data_type_str (s : String) : Except StorageError DataType :=
  if s = "INT" then
    Except.ok DataType.int
  else if s = "VARCHAR" then
    Except.ok (DataType.varchar none)
  else if "VARCHAR(".data.isPrefixOf s.data ∧ s.data.getLast? = some ')' then
    let size_str := (s.data.drop 8).dropLast
    match parse_usize size_str with
    | some size => Except.ok (DataType.varchar (some size))
    | none => Except.error (StorageError.invalidSchema ("Invalid VARCHAR size: " ++ String.mk size_str))
  else
    Except.error (StorageError.invalidSchema ("Unknown data type: " ++ s))

/-- The column-definition loop of `load_schema`: trim each line, skip blank
lines, split on `:` into exactly two parts, parse the data type. -/
def parse_schema_columns : List (List Char) → Except StorageError (List ColumnDefinition)
  | [] => Except.ok []
  | line :: rest =>
    let t := trim_chars line
    if t = [] then
      parse_schema_columns rest
    else
      match split_on_char ':' t with
      | [col_name, type_str] =>
        match parse_data_type_str (String.mk type_str) with
        | Except.error e => Except.error e
        | Except.ok dt =>
          match parse_schema_columns rest with
          | Except.error e => Except.error e
          | Except.ok cols => Except.ok (ColumnDefinition.mk (String.mk col_name) dt :: cols)
      | _ => Except.error (StorageError.invalidSchema ("Invalid column definition: " ++ String.mk t))

/-- `load_schema` from storage.rs. -/
def load_schema (fs : FS) (table_name : String) : Except StorageError CreateTableStatement :=
  match fs (schema_path table_name) with
  | none => Except.error (StorageError.tableNotFound table_name)
  | some content =>
    match rust_lines content.data with
    | [] => Except.error (StorageError.invalidSchema "Empty schema file")
    | stored_table_name :: rest =>
      if String.mk stored_table_name ≠ table_name then
        Except.error (StorageError.invalidSchema
          ("Table name mismatch: expected " ++ table_name ++ ", got " ++ String.mk stored_table_name))
      else
        match parse_schema_columns rest with
        | Except.error e => Except.error e
        | Except.ok columns => Except.ok (CreateTableStatement.mk table_name columns)

/-- Does a runtime value fit a declared column type (`Null` fits every type)? -/
def value_matches : Value → DataType → Bool
  | Value.null, _ => true
  | Value.int _, DataType.int => true
  | Value.string _, DataType.varchar _ => true
  | _, _ => false

/-- Rust `{:?}` rendering of a `DataType` (as used in TypeMismatch payloads). -/
def data_type_debug : DataType → String
  | DataType.int => "Int"
  | DataType.varchar none => "Varchar(None)"
  | DataType.varchar (some n) => "Varchar(Some(" ++ toString n ++ "))"

/-- Rust `{:?}` rendering of a `Value` (string payloads are quoted; the
Debug escaping of special characters inside the payload is not replayed). -/
def value_debug : Value → String
  | Value.int n => "Int(" ++ toString n ++ ")"
  | Value.string s => "String(\"" ++ s ++ "\")"
  | Value.null => "Null"

/-- `validate_value_type` from storage.rs. -/
def validate_value_type : Value → DataType → String → Except StorageError Unit
  | Value.null, _, _ => Except.ok ()
  | Value.int _, DataType.int, _ => Except.ok ()
  | Value.string _, DataType.varchar _, _ => Except.ok ()
  | v, dt, column_name =>
    Except.error (StorageError.typeMismatch column_name (data_type_debug dt) (value_debug v))

/-- The validation loop of `insert_row` over `values.zip(columns)`
(the zip stops at the shorter list, as in Rust). -/
def validate_row : List Value → List ColumnDefinition → Except StorageError Unit
  | _, [] => Except.ok ()
  | [], _ :: _ => Except.ok ()
  | v :: vs, col :: cols =>
    match validate_value_type v col.dataType col.name with
    | Except.error e => Except.error e
    | Except.ok _ => validate_row vs cols

/-- `insert_row` from storage.rs: load the schema, check the column count,
validate each value's type, then append one encoded line to the data file
(creating it if absent). -/
def insert_row (fs : FS) (stmt : InsertStatement) : Except StorageError Unit × FS :=
  match load_schema fs stmt.tableName with
  | Except.error e => (Except.error e, fs)
  | Except.ok schema =>
    if stmt.values.length ≠ schema.columns.length then
      (Except.error (StorageError.columnCountMismatch schema.columns.length stmt.values.length), fs)
    else
      match validate_row stmt.values schema.columns with
      | Except.error e => (Except.error e, fs)
      | Except.ok _ =>
        let row_str := String.mk (serialize_row stmt.values)
        let old := (fs (data_path stmt.tableName)).getD ""
        (Except.ok (), fsWrite fs (data_path stmt.tableName) (old ++ row_str ++ "\n"))

/-- The line loop of `read_rows`: skip blank lines, decode the rest in order. -/
def read_lines : List (List Char) → Except StorageError (List (List Value))
  | [] => Except.ok []
  | line :: rest =>
    if is_blank line then
      read_lines rest
    else
      match deserialize_row line with
      | Except.error e => Except.error e
      | Except.ok row =>
        match read_lines rest with
        | Except.error e => Except.error e
        | Except.ok rows => Except.ok (row :: rows)

/-- `read_rows` from storage.rs: unknown table fails, a missing data file
yields no rows, otherwise every non-blank line is decoded in file order. -/
def read_rows (fs : FS) (table_name : String) : Except StorageError (List (List Value)) :=
  if ¬ table_exists fs table_name then
    Except.error (StorageError.tableNotFound table_name)
  else
    match fs (data_path table_name) with
    | none => Except.ok []
    | some content => read_lines (rust_lines content.data)

/-- Plain decoding of a list of lines, first error aborting (used to state
what `read_lines` computes on the non-blank lines). -/
def decode_all : List (List Char) → Except StorageError (List (List Value))
  | [] => Except.ok []
  | line :: rest =>
    match deserialize_row line with
    | Except.error e => Except.error e
    | Except.ok row =>
      match decode_all rest with
      | Except.error e => Except.error e
      | Except.ok rows => Except.ok (row :: rows)

/-! ## Statement executor (src/main.rs lines 168-324) -/

/-- The kind of a runtime value (Int, String or Null), used to state the
mismatch rule of `compare_values`. -/
inductive VKind where
  | kInt | kString | kNull
deriving DecidableEq

/-- The kind of a `Value`. -/
def value_kind : Value → VKind
  | Value.int _ => VKind.kInt
  | Value.string _ => VKind.kString
  | Value.null => VKind.kNull

/-- `compare_values` from main.rs: natural orderings within a kind,
`Null = Null` true and every other operator on two Nulls false, any kind
mismatch false. -/
def compare_values : Value → Operator → Value → Bool
  | Value.int l, op, Value.int r =>
    match op with
    | Operator.equals => decide (l = r)
    | Operator.notEquals => decide (l ≠ r)
    | Operator.greaterThan => decide (l > r)
    | Operator.lessThan => decide (l < r)
    | Operator.greaterThanOrEqual => decide (l ≥ r)
    | Operator.lessThanOrEqual => decide (l ≤ r)
  | Value.string l, op, Value.string r =>
    match op with
    | Operator.equals => decide (l = r)
    | Operator.notEquals => decide (l ≠ r)
    | Operator.greaterThan => decide (l > r)
    | Operator.lessThan => decide (l < r)
    | Operator.greaterThanOrEqual => decide (l ≥ r)
    | Operator.lessThanOrEqual => decide (l ≤ r)
  | Value.null, op, Value.null =>
    match op with
    | Operator.equals => true
    | Operator.notEquals => false
    | _ => false
  | _, _, _ => false

/-- Rust `row[idx]`: in-bounds indexing yields the value, out-of-bounds
indexing panics (modelled as the `.error` case). -/
def index_value (row : List Value) (idx : Nat) : Except String Value :=
  match row.get? idx with
  | some v => Except.ok v
  | none => Except.error "index out of bounds"

/-- `resolve_expression` from main.rs: a literal is itself; a (qualified)
column name is looked up by first name match in the schema and the row is
indexed at that position (a too-short row panics there). -/
def resolve_expression (expr : Expression) (row : List Value) (schema : List ColumnDefinition) :
    Except String (Option Value) :=
  match expr with
  | Expression.literal v => Except.ok (some v)
  | Expression.column name =>
    match schema.findIdx? (fun c => c.name == name) with
    | none => Except.ok none
    | some idx =>
      match index_value row idx with
      | Except.error e => Except.error e
      | Except.ok v => Except.ok (some v)
  | Expression.qualifiedColumn _ col =>
    match schema.findIdx? (fun c => c.name == col) with
    | none => Except.ok none
    | some idx =>
      match index_value row idx with
      | Except.error e => Except.error e
      | Except.ok v => Except.ok (some v)

/-- `evaluate_condition` from main.rs: resolve both sides, compare when both
resolve, otherwise false. -/
def evaluate_condition (condition : Condition) (row : List Value) (schema : List ColumnDefinition) :
    Except String Bool :=
  match resolve_expression condition.left row schema with
  | Except.error e => Except.error e
  | Except.ok left_val =>
    match resolve_expression condition.right row schema with
    | Except.error e => Except.error e
    | Except.ok right_val =>
      match left_val, right_val with
      | some l, some r => Except.ok (compare_values l condition.operator r)
      | _, _ => Except.ok false

/-- The per-entry resolution inside `execute_select`'s display-column
computation: `All` in a non-singleton list is dropped; a (qualified) name
resolves to the first matching schema position or is dropped. -/
def resolve_select_column (schema : List ColumnDefinition) : SelectColumn → Option (Nat × String)
  | SelectColumn.all => none
  | SelectColumn.column name =>
    (schema.findIdx? (fun c => c.name == name)).map fun idx => (idx, name)
  | SelectColumn.qualifiedColumn _ name =>
    (schema.findIdx? (fun c => c.name == name)).map fun idx => (idx, name)

/-- The display-column computation of `execute_select` (main.rs lines
198-214): the singleton `[All]` expands to every schema column in order;
any other projection list is resolved entry-wise, dropping failures. -/
def display_columns (cols : List SelectColumn) (schema : List ColumnDefinition) :
    List (Nat × String) :=
  if cols = [SelectColumn.all] then
    schema.enum.map fun p => (p.1, p.2.name)
  else
    cols.filterMap (resolve_select_column schema)

/-- The per-row projection of `execute_select`'s output loop: each display
column indexes the row at its resolved position (`row[*col_idx]`). -/
def project_row (dcols : List (Nat × String)) (row : List Value) : Except String (List Value) :=
  match dcols with
  | [] => Except.ok []
  | (idx, _) :: rest =>
    match index_value row idx with
    | Except.error e => Except.error e
    | Except.ok v =>
      match project_row rest row with
      | Except.error e => Except.error e
      | Except.ok vs => Except.ok (v :: vs)

/-- Is an `Except` value a success? -/
def is_ok {ε α : Type} : Except ε α → Bool
  | Except.ok _ => true
  | Except.error _ => false

/-! ## Grammar (src/parser.rs lines 109-398)

The nom parsers are embedded as state-passing functions on the remaining
input (`IResult<&str, T>` becomes `Except String (T × List Char)`); every
error backtracks, as in the source where no `cut` is used. -/

/-- A nom-style parsing computation over the remaining input. -/
abbrev ParserM (α : Type) : Type := StateT (List Char) (Except String) α

/-- nom `tag`: match a literal prefix. -/
def ptag (lit : List Char) : ParserM (List Char) := fun input =>
  if lit.isPrefixOf input then Except.ok (lit, input.drop lit.length) else Except.error "tag"

/-- nom `char`: match one specific character. -/
def pchar (c : Char) : ParserM Char := fun input =>
  match input with
  | c2 :: rest => if c2 = c then Except.ok (c, rest) else Except.error "char"
  | [] => Except.error "char"

/-- nom `take_while`: the longest (possibly empty) run satisfying the predicate. -/
def take_while0 (p : Char → Bool) : ParserM (List Char) := fun input =>
  Except.ok (input.takeWhile p, input.dropWhile p)

/-- nom `take_while1`: like `take_while` but failing on an empty run. -/
def take_while1 (p : Char → Bool) : ParserM (List Char) := fun input =>
  match input.takeWhile p with
  | [] => Except.error "take_while1"
  | taken => Except.ok (taken, input.dropWhile p)

/-- nom `multispace0` (space, tab, CR, LF). -/
def multispace0 : ParserM (List Char) := take_while0 is_ws

/-- nom `multispace1`. -/
def multispace1 : ParserM (List Char) := take_while1 is_ws

/-- nom `alt`: try each alternative on the same input, first success wins. -/
def altList (ps : List (ParserM α)) : ParserM α := fun input =>
  match ps with
  | [] => Except.error "alt"
  | p :: rest =>
    match p input with
    | Except.ok r => Except.ok r
    | Except.error _ => altList rest input

/-- nom `opt`: turn failure into `none` without consuming. -/
def optP (p : ParserM α) : ParserM (Option α) := fun input =>
  match p input with
  | Except.ok (a, rest) => Except.ok (some a, rest)
  | Except.error _ => Except.ok (none, input)

/-- nom `delimited`: the middle result between two delimiters. -/
def delimitedP (l : ParserM α) (mid : ParserM β) (r : ParserM γ) : ParserM β := do
  _ ← l
  let b ← mid
  _ ← r
  pure b

/-- The loop of nom `many0`; a non-consuming success is an error (nom's
infinite-loop guard).  One unit of fuel per consumed character suffices. -/
def many0_go (p : ParserM α) : Nat → List Char → List α → Except String (List α × List Char)
  | 0, _, _ => Except.error "many0 fuel"
  | fuel + 1, input, acc =>
    match p input with
    | Except.error _ => Except.ok (acc, input)
    | Except.ok (a, rest) =>
      if rest.length = input.length then Except.error "many0 no progress"
      else many0_go p fuel rest (acc ++ [a])

/-- nom `many0`. -/
def many0 (p : ParserM α) : ParserM (List α) := fun input =>
  many0_go p (input.length + 1) input []

/-- The loop of nom `separated_list0`: stop when the separator or the next
element fails (backtracking the separator); a non-consuming separator is an
error (nom's guard). -/
def sep_go (sep : ParserM β) (p : ParserM α) :
    Nat → List Char → List α → Except String (List α × List Char)
  | 0, _, _ => Except.error "separated_list0 fuel"
  | fuel + 1, input, acc =>
    match sep input with
    | Except.error _ => Except.ok (acc, input)
    | Except.ok (_, i1) =>
      if i1.length = input.length then Except.error "separated_list0 no progress"
      else
        match p i1 with
        | Except.error _ => Except.ok (acc, input)
        | Except.ok (a, i2) => sep_go sep p fuel i2 (acc ++ [a])

/-- nom `separated_list0`: zero elements when the first fails. -/
def separated_list0 (sep : ParserM β) (p : ParserM α) : ParserM (List α) := fun input =>
  match p input with
  | Except.error _ => Except.ok ([], input)
  | Except.ok (a, i1) => sep_go sep p (i1.length + 1) i1 [a]

/-- nom `alpha1` character class (ASCII here; see header note). -/
def is_alpha_char (c : Char) : Bool := c.isAlpha

/-- `c.is_alphanumeric() || c == '_'` from `parse_identifier`. -/
def is_ident_char (c : Char) : Bool := c.isAlphanum || c = '_'

/-- `parse_identifier`: `recognize(tuple((alpha1, take_while(alnum or _))))`. -/
def parse_identifier : ParserM (List Char) := do
  let a ← take_while1 is_alpha_char
  let b ← take_while0 is_ident_char
  pure (a ++ b)

/-- Digit-run accumulation (all characters are digits by construction). -/
def nat_of_digits (l : List Char) : Nat :=
  l.foldl (fun acc c => acc * 10 + (c.toNat - 48)) 0

/-- nom `character::complete::i64`: optional sign, one or more digits,
error on `i64` overflow. -/
def nom_i64 : ParserM Int := fun input =>
  let signed : Bool × Bool × List Char :=
    match input with
    | c :: r =>
      if c = '+' then (true, false, r)
      else if c = '-' then (true, true, r)
      else (false, false, input)
    | [] => (false, false, input)
  match signed with
  | (_, neg, rest) =>
    match rest.takeWhile Char.isDigit with
    | [] => Except.error "digit"
    | ds =>
      let n := nat_of_digits ds
      if neg then
        if n ≤ 2 ^ 63 then Except.ok (-(n : Int), rest.dropWhile Char.isDigit)
        else Except.error "overflow"
      else
        if n ≤ 2 ^ 63 - 1 then Except.ok ((n : Int), rest.dropWhile Char.isDigit)
        else Except.error "overflow"

/-- nom `character::complete::u64`: one or more digits, error on overflow. -/
def nom_u64 : ParserM Nat := fun input =>
  match input.takeWhile Char.isDigit with
  | [] => Except.error "digit"
  | ds =>
    let n := nat_of_digits ds
    if n ≤ 2 ^ 64 - 1 then Except.ok (n, input.dropWhile Char.isDigit)
    else Except.error "overflow"

/-- `parse_int_value`. -/
def parse_int_value : ParserM Value := do
  let num ← nom_i64
  pure (Value.int num)

/-- `parse_string_value`: a quote, `take_while1` of non-quote characters, a quote. -/
def parse_string_value : ParserM Value := do
  let s ← delimitedP (pchar squote) (take_while1 fun c => c != squote) (pchar squote)
  pure (Value.string (String.mk s))

/-- `parse_null_value`. -/
def parse_null_value : ParserM Value := do
  _ ← ptag "NULL".data
  pure Value.null

/-- `parse_value`: surrounding whitespace, then string / NULL / integer. -/
def parse_value : ParserM Value := do
  _ ← multispace0
  let value ← altList [parse_string_value, parse_null_value, parse_int_value]
  _ ← multispace0
  pure value

/-- `parse_int_type`. -/
def parse_int_type : ParserM DataType := do
  _ ← ptag "INT".data
  pure DataType.int

/-- `parse_varchar_type`. -/
def parse_varchar_type : ParserM DataType := do
  _ ← ptag "VARCHAR".data
  let size ← optP (delimitedP (pchar '(') nom_u64 (pchar ')'))
  pure (DataType.varchar size)

/-- `parse_data_type` from parser.rs (grammar rule; `_g` avoids the clash
with the storage module's function of the same name). -/
def parse_data_type_g : ParserM DataType :=
  altList [parse_int_type, parse_varchar_type]

/-- `parse_column_definition`. -/
def parse_column_definition : ParserM ColumnDefinition := do
  _ ← multispace0
  let name ← parse_identifier
  _ ← multispace1
  let data_type ← parse_data_type_g
  _ ← multispace0
  pure (ColumnDefinition.mk (String.mk name) data_type)

/-- `parse_create_table`. -/
def parse_create_table : ParserM SqlStatement := do
  _ ← ptag "CREATE".data
  _ ← multispace1
  _ ← ptag "TABLE".data
  _ ← multispace1
  let table_name ← parse_identifier
  _ ← multispace0
  let columns ← delimitedP (pchar '(') (separated_list0 (pchar ',') parse_column_definition) (pchar ')')
  _ ← multispace0
  _ ← optP (pchar ';')
  pure (SqlStatement.createTable (CreateTableStatement.mk (String.mk table_name) columns))

/-- `parse_insert`. -/
def parse_insert : ParserM SqlStatement := do
  _ ← ptag "INSERT".data
  _ ← multispace1
  _ ← ptag "INTO".data
  _ ← multispace1
  let table_name ← parse_identifier
  _ ← multispace0
  _ ← ptag "VALUES".data
  _ ← multispace0
  let values ← delimitedP (pchar '(')
    (separated_list0 (delimitedP multispace0 (pchar ',') multispace0) parse_value)
    (pchar ')')
  _ ← multispace0
  _ ← optP (pchar ';')
  pure (SqlStatement.insert (InsertStatement.mk (String.mk table_name) values))

/-- `parse_all_column`. -/
def parse_all_column : ParserM SelectColumn := do
  _ ← pchar '*'
  pure SelectColumn.all

/-- `parse_qualified_column`. -/
def parse_qualified_column : ParserM SelectColumn := do
  let table ← parse_identifier
  _ ← pchar '.'
  let column ← parse_identifier
  pure (SelectColumn.qualifiedColumn (String.mk table) (String.mk column))

/-- `parse_simple_column`. -/
def parse_simple_column : ParserM SelectColumn := do
  let name ← parse_identifier
  pure (SelectColumn.column (String.mk name))

/-- `parse_select_column`: leading whitespace, then `*` / qualified / simple. -/
def parse_select_column : ParserM SelectColumn := do
  _ ← multispace0
  altList [parse_all_column, parse_qualified_column, parse_simple_column]

/-- `parse_expression_qualified_column`. -/
def parse_expression_qualified_column : ParserM Expression := do
  let table ← parse_identifier
  _ ← pchar '.'
  let column ← parse_identifier
  pure (Expression.qualifiedColumn (String.mk table) (String.mk column))

/-- `parse_expression_simple_column`. -/
def parse_expression_simple_column : ParserM Expression := do
  let name ← parse_identifier
  pure (Expression.column (String.mk name))

/-- `parse_expression_literal`. -/
def parse_expression_literal : ParserM Expression := do
  let value ← parse_value
  pure (Expression.literal value)

/-- `parse_expression`. -/
def parse_expression : ParserM Expression :=
  altList [parse_expression_qualified_column, parse_expression_simple_column, parse_expression_literal]

/-- `parse_operator` (note `=`, `!=`, then the two-character orders first). -/
def parse_operator : ParserM Operator :=
  altList [
    (do _ ← ptag "=".data; pure Operator.equals),
    (do _ ← ptag "!=".data; pure Operator.notEquals),
    (do _ ← ptag ">=".data; pure Operator.greaterThanOrEqual),
    (do _ ← ptag "<=".data; pure Operator.lessThanOrEqual),
    (do _ ← ptag ">".data; pure Operator.greaterThan),
    (do _ ← ptag "<".data; pure Operator.lessThan)]

/-- `parse_condition`. -/
def parse_condition : ParserM Condition := do
  _ ← multispace0
  let left ← parse_expression
  _ ← multispace0
  let operator ← parse_operator
  _ ← multispace0
  let right ← parse_expression
  pure (Condition.mk left operator right)

/-- `parse_where`. -/
def parse_where : ParserM WhereClause := do
  _ ← multispace0
  _ ← ptag "WHERE".data
  _ ← multispace1
  let condition ← parse_condition
  pure (WhereClause.mk condition)

/-- `parse_join`: join keyword, table, an optional alias identifier, `ON`,
condition.  (The optional alias greedily consumes the next identifier.) -/
def parse_join : ParserM JoinClause := do
  _ ← multispace1
  let join_type ← altList [
    (do _ ← ptag "INNER JOIN".data; pure JoinType.inner),
    (do _ ← ptag "LEFT JOIN".data; pure JoinType.left),
    (do _ ← ptag "RIGHT JOIN".data; pure JoinType.right),
    (do _ ← ptag "JOIN".data; pure JoinType.inner)]
  _ ← multispace1
  let table ← parse_identifier
  let aliasName ← optP (do
    _ ← multispace1
    let a ← parse_identifier
    pure (String.mk a))
  _ ← multispace1
  _ ← ptag "ON".data
  _ ← multispace1
  let condition ← parse_condition
  pure (JoinClause.mk join_type (String.mk table) aliasName condition)

/-- `parse_select`: columns, FROM, source table, joins (`many0`), optional
WHERE, optional `;`. -/
def parse_select : ParserM SqlStatement := do
  _ ← ptag "SELECT".data
  _ ← multispace1
  let columns ← separated_list0 (delimitedP multispace0 (pchar ',') multispace0) parse_select_column
  _ ← multispace1
  _ ← ptag "FROM".data
  _ ← multispace1
  let fromName ← parse_identifier
  let joins ← many0 parse_join
  let where_clause ← optP parse_where
  _ ← multispace0
  _ ← optP (pchar ';')
  pure (SqlStatement.select (SelectStatement.mk columns (String.mk fromName) where_clause joins))

/-- The statement alternation of `parse_sql`. -/
def parse_sql_p : ParserM SqlStatement := do
  _ ← multispace0
  let stmt ← altList [parse_insert, parse_create_table, parse_select]
  _ ← multispace0
  pure stmt

/-- `parse_sql` from parser.rs, applied to a whole input string. -/
def parse_sql (input : String) : Except String (SqlStatement × List Char) :=
  parse_sql_p input.data

/-! ## Concrete instances used by the witnesses -/

/-- An empty storage directory. -/
def fs_empty : FS := fun _ => none

/-- The `users(id INT, name VARCHAR(255))` table of the storage tests. -/
def ct_users : CreateTableStatement :=
  CreateTableStatement.mk "users"
    [ColumnDefinition.mk "id" DataType.int,
     ColumnDefinition.mk "name" (DataType.varchar (some 255))]

/-- The storage directory after creating `users` in an empty directory. -/
def fs_users_created : FS := (create_table fs_empty ct_users).2

/-- The condition `id = 1`. -/
def cond_id_eq_1 : Condition :=
  Condition.mk (Expression.column "id") Operator.equals (Expression.literal (Value.int 1))

/-! ## Theorems -/

/-- C1.  The row codec does not round-trip: serializing the one-string row
whose string is backslash-then-`n` and deserializing the result yields the
string backslash-then-newline, because the decoder's first global replace
(`\n` to newline) also rewrites the pair formed by the second half of an
escaped backslash `\\` and a following literal `n`. -/
theorem c1_roundtrip_fails_on_backslash_n :
    deserialize_row (serialize_row [Value.string (String.mk [bslash, 'n'])])
      = Except.ok [Value.string (String.mk [bslash, nlChar])]
    ∧ String.mk [bslash, 'n'] ≠ String.mk [bslash, nlChar] := by
  constructor
  · rfl
  · decide

/-- C8.  Parsing the alias-less join statement from the claim does not
produce a join clause: `parse_join` consumes `ON` as the optional alias and
then fails, `many0` therefore yields no joins, and `parse_sql` returns a
`Select` with an empty `joins` list and the whole join text left
unconsumed.  A join with an explicit alias does parse into a `JoinClause`. -/
theorem c8_join_clause_not_parsed :
    parse_sql "SELECT * FROM users JOIN orders ON users.id = orders.user_id;"
      = Except.ok
          (SqlStatement.select (SelectStatement.mk [SelectColumn.all] "users" none []),
           "JOIN orders ON users.id = orders.user_id;".data)
    ∧ parse_join.run " JOIN orders o ON users.id = orders.user_id;".data
      = Except.ok
          (JoinClause.mk JoinType.inner "orders" (some "o")
            (Condition.mk (Expression.qualifiedColumn "users" "id") Operator.equals
              (Expression.qualifiedColumn "orders" "user_id")),
           [';']) := by
  constructor
  · rfl
  · rfl

/-- C9.  `SqlStatement` has only the three variants of the source enum;
UPDATE and DELETE statements are not parser output: `parse_sql` fails on
both (every alternative of its `alt` is tried and fails). -/
theorem c9_update_delete_not_parser_output :
    is_ok (parse_sql "UPDATE users SET id = 2 WHERE id = 1;") = false
    ∧ is_ok (parse_sql "DELETE FROM users WHERE id = 1;") = false
    ∧ ∀ s : SqlStatement,
        (∃ c, s = SqlStatement.createTable c)
        ∨ (∃ i, s = SqlStatement.insert i)
        ∨ (∃ q, s = SqlStatement.select q) := by
  refine ⟨rfl, rfl, ?_⟩
  intro s
  cases s with
  | createTable c => exact Or.inl ⟨c, rfl⟩
  | insert i => exact Or.inr (Or.inl ⟨i, rfl⟩)
  | select q => exact Or.inr (Or.inr ⟨q, rfl⟩)

/-- C2.  `compare_values` on two Nulls is true exactly under `Equals`, and
any kind mismatch (Int vs String, or exactly one side Null) is false for
every operator; the function is total, so no comparison errors. -/
theorem c2_compare_values_null_and_mismatch (op : Operator) :
    (compare_values Value.null op Value.null = true ↔ op = Operator.equals)
    ∧ ∀ l r : Value, value_kind l ≠ value_kind r → compare_values l op r = false := by
  constructor
  · cases op <;> simp [compare_values]
  · intro l r h
    cases l <;> cases r <;> cases op <;>
      simp_all [compare_values, value_kind]

/-- C2 witness. -/
theorem c2_witness :
    compare_values (Value.int 0) Operator.greaterThan (Value.string "a") = false :=
  (c2_compare_values_null_and_mismatch Operator.greaterThan).2
    (Value.int 0) (Value.string "a") (by decide)

/-- C6.  After a successful `create_table`, a second `create_table` with
the same statement fails with `TableAlreadyExists` and returns the file
system unchanged (every file, in particular the first table's schema and
data files, is byte-for-byte what it was). -/
theorem c6_create_table_duplicate (fs fs2 : FS) (stmt : CreateTableStatement)
    (h : create_table fs stmt = (Except.ok (), fs2)) :
    create_table fs2 stmt
      = (Except.error (StorageError.tableAlreadyExists stmt.tableName), fs2) := by
  unfold create_table at h
  split at h
  · simp at h
  · simp only [Prod.mk.injEq] at h
    obtain ⟨-, hfs⟩ := h
    subst hfs
    have hsome :
        ((fsWrite (fsWrite fs (schema_path stmt.tableName) (schema_file_content stmt))
            (data_path stmt.tableName) "") (schema_path stmt.tableName)).isSome = true := by
      unfold fsWrite
      split <;> simp
    unfold create_table
    rw [if_pos hsome]

/-- C6 witness. -/
theorem c6_witness :
    create_table fs_users_created ct_users
      = (Except.error (StorageError.tableAlreadyExists "users"), fs_users_created) :=
  c6_create_table_duplicate fs_empty fs_users_created ct_users rfl

/-- `validate_value_type` succeeds exactly when the value's runtime kind
fits the declared type. -/
theorem validate_value_type_ok_iff (v : Value) (dt : DataType) (name : String) :
    validate_value_type v dt name = Except.ok () ↔ value_matches v dt = true := by
  cases v <;> cases dt <;> simp [validate_value_type, value_matches]

/-- When a value does not fit, `validate_value_type` produces exactly a
`TypeMismatch` error. -/
theorem validate_value_type_mismatch (v : Value) (dt : DataType) (name : String)
    (h : value_matches v dt = false) :
    validate_value_type v dt name
      = Except.error
          (StorageError.typeMismatch name (data_type_debug dt) (value_debug v)) := by
  cases v <;> cases dt <;> simp_all [validate_value_type, value_matches]

/-- The only error `validate_value_type` can produce is a `TypeMismatch`. -/
theorem validate_value_type_error_shape (v : Value) (dt : DataType) (name : String)
    (e : StorageError) (h : validate_value_type v dt name = Except.error e) :
    ∃ c x g, e = StorageError.typeMismatch c x g := by
  cases v <;> cases dt <;> simp_all [validate_value_type]
  all_goals exact ⟨_, _, _, h.symm⟩

/-- If some position of the zipped value/column lists mismatches, the
validation loop fails with a `TypeMismatch`. -/
theorem validate_row_error_of_mismatch :
    ∀ (vs : List Value) (cols : List ColumnDefinition) (j : Nat) (v : Value)
      (cd : ColumnDefinition),
      vs[j]? = some v → cols[j]? = some cd →
      value_matches v cd.dataType = false →
      ∃ c x g, validate_row vs cols = Except.error (StorageError.typeMismatch c x g) := by
  intro vs
  induction vs with
  | nil => intro cols j v cd hv; simp at hv
  | cons v0 vs ih =>
    intro cols j v cd hv hcd hmm
    cases cols with
    | nil => simp at hcd
    | cons cd0 cols =>
      cases j with
      | zero =>
        simp at hv hcd
        subst hv
        subst hcd
        refine ⟨cd0.name, data_type_debug cd0.dataType, value_debug v0, ?_⟩
        simp [validate_row, validate_value_type_mismatch v0 cd0.dataType cd0.name hmm]
      | succ j =>
        simp at hv hcd
        cases hvv : validate_value_type v0 cd0.dataType cd0.name with
        | error e =>
          obtain ⟨c, x, g, rfl⟩ := validate_value_type_error_shape v0 cd0.dataType cd0.name e hvv
          exact ⟨c, x, g, by simp [validate_row, hvv]⟩
        | ok u =>
          obtain ⟨c, x, g, hrec⟩ := ih cols j v cd hv hcd hmm
          exact ⟨c, x, g, by simp [validate_row, hvv, hrec]⟩

/-- C3.  With a loaded schema: a value list of the wrong length fails with
`ColumnCountMismatch` and leaves the file system (in particular the data
file) unchanged; a value list of the right length containing a value whose
kind disagrees with its column's declared type fails with `TypeMismatch`,
file system unchanged; `Null` passes validation against every column type. -/
theorem c3_insert_row_validation (fs : FS) (tn : String) (schema : CreateTableStatement)
    (h : load_schema fs tn = Except.ok schema) :
    (∀ values : List Value, values.length ≠ schema.columns.length →
        insert_row fs (InsertStatement.mk tn values)
          = (Except.error
              (StorageError.columnCountMismatch schema.columns.length values.length), fs))
    ∧ (∀ (values : List Value) (j : Nat) (v : Value) (cd : ColumnDefinition),
        values.length = schema.columns.length →
        values[j]? = some v → schema.columns[j]? = some cd →
        value_matches v cd.dataType = false →
        ∃ c x g, insert_row fs (InsertStatement.mk tn values)
          = (Except.error (StorageError.typeMismatch c x g), fs))
    ∧ (∀ (dt : DataType) (name : String),
        validate_value_type Value.null dt name = Except.ok ()) := by
  refine ⟨?_, ?_, ?_⟩
  · intro values hlen
    simp [insert_row, h, hlen]
  · intro values j v cd hlen hv hcd hmm
    obtain ⟨c, x, g, herr⟩ :=
      validate_row_error_of_mismatch values schema.columns j v cd hv hcd hmm
    exact ⟨c, x, g, by simp [insert_row, h, hlen, herr]⟩
  · intro dt name
    cases dt <;> rfl

/-- C3 witness. -/
theorem c3_witness :
    insert_row fs_users_created (InsertStatement.mk "users" [Value.int 1])
      = (Except.error (StorageError.columnCountMismatch 2 1), fs_users_created) :=
  (c3_insert_row_validation fs_users_created "users" ct_users rfl).1
    [Value.int 1] (by decide)

/-- The line loop of `read_rows` decodes exactly the non-blank lines, in
order. -/
theorem read_lines_eq_decode_filter (ls : List (List Char)) :
    read_lines ls = decode_all (ls.filter fun l => !(is_blank l)) := by
  induction ls with
  | nil => rfl
  | cons l rest ih =>
    by_cases hb : is_blank l
    · simp [read_lines, hb, ih]
    · simp [read_lines, decode_all, hb, ih]

/-- C5.  `read_rows`: no schema file means `TableNotFound`; an existing
table with an absent or empty data file yields `Ok []`, never an error;
otherwise every non-blank line of the data file is decoded in file order
(insertion order). -/
theorem c5_read_rows_contract (fs : FS) (tn : String) :
    (fs (schema_path tn) = none →
      read_rows fs tn = Except.error (StorageError.tableNotFound tn))
    ∧ (∀ s, fs (schema_path tn) = some s → fs (data_path tn) = none →
        read_rows fs tn = Except.ok [])
    ∧ (∀ s, fs (schema_path tn) = some s → fs (data_path tn) = some "" →
        read_rows fs tn = Except.ok [])
    ∧ (∀ s content, fs (schema_path tn) = some s → fs (data_path tn) = some content →
        read_rows fs tn
          = decode_all ((rust_lines content.data).filter fun l => !(is_blank l))) := by
  refine ⟨?_, ?_, ?_, ?_⟩
  · intro hs
    simp [read_rows, table_exists, hs]
  · intro s hs hd
    simp [read_rows, table_exists, hs, hd]
  · intro s hs hd
    simp [read_rows, table_exists, hs, hd]
    rfl
  · intro s content hs hd
    simp [read_rows, table_exists, hs, hd]
    exact read_lines_eq_decode_filter _

/-- C5 witness. -/
theorem c5_witness : read_rows fs_users_created "users" = Except.ok [] :=
  (c5_read_rows_contract fs_users_created "users").2.2.1
    "users\nid:INT\nname:VARCHAR(255)\n" rfl rfl

/-- `findIdx?` returns the position of the first element satisfying the
predicate: if position `i` satisfies it and no earlier position does,
`findIdx?` returns `some i`. -/
theorem findIdx?_of_first {α : Type} (p : α → Bool) :
    ∀ (l : List α) (i : Nat) (a : α), l[i]? = some a → p a = true →
      (∀ j b, j < i → l[j]? = some b → p b = false) →
      l.findIdx? p = some i := by
  intro l
  induction l with
  | nil => intro i a hget; simp at hget
  | cons x xs ih =>
    intro i a hget hp hfirst
    cases i with
    | zero =>
      simp at hget
      subst hget
      simp [List.findIdx?_cons, hp]
    | succ j =>
      have hx : p x = false := hfirst 0 x (Nat.succ_pos j) (by simp)
      simp at hget
      have hrec : xs.findIdx? p = some j :=
        ih j a hget hp
          (fun j2 b hj2 hgb =>
            hfirst (j2 + 1) b (Nat.succ_lt_succ hj2) (by simpa using hgb))
      simp [List.findIdx?_cons, hx, hrec]

/-- An index returned by `findIdx?` is in bounds. -/
theorem findIdx?_lt_length {α : Type} {l : List α} {p : α → Bool} {i : Nat}
    (h : l.findIdx? p = some i) : i < l.length :=
  (List.findIdx?_eq_some_iff_findIdx_eq.mp h).1

/-- C4.  Projection resolution of `execute_select`: the singleton `[All]`
projection expands to every schema column, in declared order (positions
`0..n-1` paired with the declared names); a bare or qualified name resolves
to the position of the first schema column with that name; a name matching
no schema column is silently dropped from the display columns (the
computation is total — no error is possible). -/
theorem c4_projection_resolution (schema : List ColumnDefinition) :
    ((display_columns [SelectColumn.all] schema).map Prod.fst = List.range schema.length
      ∧ (display_columns [SelectColumn.all] schema).map Prod.snd
          = schema.map ColumnDefinition.name)
    ∧ (∀ (name : String) (i : Nat) (cd : ColumnDefinition),
        schema[i]? = some cd → cd.name = name →
        (∀ j cd2, j < i → schema[j]? = some cd2 → cd2.name ≠ name) →
        resolve_select_column schema (SelectColumn.column name) = some (i, name)
        ∧ ∀ t, resolve_select_column schema (SelectColumn.qualifiedColumn t name)
            = some (i, name))
    ∧ (∀ (name : String) (pre post : List SelectColumn),
        (∀ cd ∈ schema, cd.name ≠ name) →
        display_columns (pre ++ SelectColumn.column name :: post) schema
          = (pre ++ post).filterMap (resolve_select_column schema)) := by
  have hall : display_columns [SelectColumn.all] schema
      = schema.enum.map fun p => (p.1, p.2.name) := by
    simp [display_columns]
  refine ⟨⟨?_, ?_⟩, ?_, ?_⟩
  · have hc : (Prod.fst ∘ fun p : Nat × ColumnDefinition => (p.1, p.2.name)) = Prod.fst := rfl
    rw [hall, List.map_map, hc, List.enum_map_fst]
  · have hc : (Prod.snd ∘ fun p : Nat × ColumnDefinition => (p.1, p.2.name))
        = ColumnDefinition.name ∘ Prod.snd := rfl
    rw [hall, List.map_map, hc, ← List.map_map, List.enum_map_snd]
  · intro name i cd hget hname hfirst
    have hp : (fun c : ColumnDefinition => c.name == name) cd = true := by
      simp [hname]
    have hfirst2 : ∀ j b, j < i → schema[j]? = some b →
        (fun c : ColumnDefinition => c.name == name) b = false := by
      intro j b hj hgb
      simpa using hfirst j b hj hgb
    have hidx : schema.findIdx? (fun c => c.name == name) = some i :=
      findIdx?_of_first _ schema i cd hget hp hfirst2
    constructor
    · simp [resolve_select_column, hidx]
    · intro t
      simp [resolve_select_column, hidx]
  · intro name pre post hnone
    have hne : pre ++ SelectColumn.column name :: post ≠ [SelectColumn.all] := by
      intro hcontra
      have hmem : SelectColumn.column name ∈ pre ++ SelectColumn.column name :: post :=
        List.mem_append_right _ (List.mem_cons_self _ _)
      rw [hcontra] at hmem
      simp at hmem
    have hres : resolve_select_column schema (SelectColumn.column name) = none := by
      have hfi : schema.findIdx? (fun c => c.name == name) = none := by
        rw [List.findIdx?_eq_none_iff]
        intro c hc
        simpa using hnone c hc
      simp [resolve_select_column, hfi]
    rw [display_columns, if_neg hne, List.filterMap_append, List.filterMap_append,
      List.filterMap_cons_none hres]

/-- C4 witness. -/
theorem c4_witness :
    resolve_select_column
        [ColumnDefinition.mk "id" DataType.int,
         ColumnDefinition.mk "name" (DataType.varchar (some 255))]
        (SelectColumn.column "name")
      = some (1, "name") :=
  ((c4_projection_resolution _).2.1 "name" 1
      (ColumnDefinition.mk "name" (DataType.varchar (some 255))) rfl rfl
      (by
        intro j cd2 hj hget
        have hj0 : j = 0 := Nat.lt_one_iff.mp hj
        subst hj0
        simp at hget
        subst hget
        decide)).1

/-- When the row covers every schema position, `resolve_expression` cannot
hit the out-of-bounds panic. -/
theorem resolve_expression_ok (expr : Expression) (row : List Value)
    (schema : List ColumnDefinition) (h : schema.length ≤ row.length) :
    ∃ r, resolve_expression expr row schema = Except.ok r := by
  cases expr with
  | literal v => exact ⟨some v, rfl⟩
  | column name =>
    cases hidx : schema.findIdx? (fun c => c.name == name) with
    | none => exact ⟨none, by simp [resolve_expression, hidx]⟩
    | some idx =>
      have hlt : idx < row.length := Nat.lt_of_lt_of_le (findIdx?_lt_length hidx) h
      exact ⟨some row[idx],
        by simp [resolve_expression, hidx, index_value, List.getElem?_eq_getElem hlt]⟩
  | qualifiedColumn t name =>
    cases hidx : schema.findIdx? (fun c => c.name == name) with
    | none => exact ⟨none, by simp [resolve_expression, hidx]⟩
    | some idx =>
      have hlt : idx < row.length := Nat.lt_of_lt_of_le (findIdx?_lt_length hidx) h
      exact ⟨some row[idx],
        by simp [resolve_expression, hidx, index_value, List.getElem?_eq_getElem hlt]⟩

/-- Every display-column position is a valid schema position. -/
theorem display_columns_lt (cols : List SelectColumn) (schema : List ColumnDefinition) :
    ∀ pr ∈ display_columns cols schema, pr.1 < schema.length := by
  intro pr hpr
  unfold display_columns at hpr
  split at hpr
  · obtain ⟨q, hq, rfl⟩ := List.mem_map.mp hpr
    have : q.1 ∈ schema.enum.map Prod.fst := List.mem_map_of_mem _ hq
    rw [List.enum_map_fst] at this
    simpa using this
  · obtain ⟨col, _, hres⟩ := List.mem_filterMap.mp hpr
    cases col with
    | all => simp [resolve_select_column] at hres
    | column name =>
      simp only [resolve_select_column, Option.map_eq_some'] at hres
      obtain ⟨idx, hidx, hpr2⟩ := hres
      have := findIdx?_lt_length hidx
      simp [← hpr2, this]
    | qualifiedColumn t name =>
      simp only [resolve_select_column, Option.map_eq_some'] at hres
      obtain ⟨idx, hidx, hpr2⟩ := hres
      have := findIdx?_lt_length hidx
      simp [← hpr2, this]

/-- Projection succeeds when every display-column position is within the row. -/
theorem project_row_ok (dcols : List (Nat × String)) (row : List Value)
    (h : ∀ pr ∈ dcols, pr.1 < row.length) :
    ∃ vs, project_row dcols row = Except.ok vs := by
  induction dcols with
  | nil => exact ⟨[], rfl⟩
  | cons pr rest ih =>
    obtain ⟨idx, nm⟩ := pr
    have hlt : idx < row.length := h (idx, nm) (List.mem_cons_self _ _)
    obtain ⟨vs, hvs⟩ := ih (fun q hq => h q (List.mem_cons_of_mem _ hq))
    exact ⟨row[idx] :: vs,
      by simp [project_row, index_value, List.getElem?_eq_getElem hlt, hvs]⟩

/-- C10.  WHERE evaluation and projection index the row at schema-resolved
positions without a bounds check: whenever the row is at least as long as
the schema they cannot abort, and on a row shorter than its schema both
abort with the out-of-bounds panic (modelled as `.error`) instead of
returning a result. -/
theorem c10_row_length_precondition :
    (∀ (condition : Condition) (row : List Value) (schema : List ColumnDefinition),
        schema.length ≤ row.length →
        is_ok (evaluate_condition condition row schema) = true)
    ∧ (∀ (cols : List SelectColumn) (schema : List ColumnDefinition) (row : List Value),
        schema.length ≤ row.length →
        is_ok (project_row (display_columns cols schema) row) = true)
    ∧ evaluate_condition cond_id_eq_1 [] [ColumnDefinition.mk "id" DataType.int]
        = Except.error "index out of bounds"
    ∧ project_row
          (display_columns [SelectColumn.all] [ColumnDefinition.mk "id" DataType.int]) []
        = Except.error "index out of bounds" := by
  refine ⟨?_, ?_, rfl, rfl⟩
  · intro condition row schema h
    obtain ⟨lv, hl⟩ := resolve_expression_ok condition.left row schema h
    obtain ⟨rv, hr⟩ := resolve_expression_ok condition.right row schema h
    cases lv <;> cases rv <;> simp [evaluate_condition, hl, hr, is_ok]
  · intro cols schema row h
    obtain ⟨vs, hvs⟩ := project_row_ok (display_columns cols schema) row
      (fun pr hpr => Nat.lt_of_lt_of_le (display_columns_lt cols schema pr hpr) h)
    simp [hvs, is_ok]

/-- C10 witness. -/
theorem c10_witness :
    is_ok (evaluate_condition cond_id_eq_1 [Value.int 1]
      [ColumnDefinition.mk "id" DataType.int]) = true :=
  c10_row_length_precondition.1 cond_id_eq_1 [Value.int 1]
    [ColumnDefinition.mk "id" DataType.int] (by decide)

/-- `takeWhile`/`dropWhile` on a satisfying run followed by a failing
character split exactly at that character. -/
theorem takeWhile_dropWhile_append {p : Char → Bool} :
    ∀ (s : List Char) (q : Char) (rest : List Char),
      (∀ c ∈ s, p c = true) → p q = false →
      (s ++ q :: rest).takeWhile p = s ∧ (s ++ q :: rest).dropWhile p = q :: rest := by
  intro s
  induction s with
  | nil =>
    intro q rest _ hq
    simp [List.takeWhile_cons, List.dropWhile_cons, hq]
  | cons c cs ih =>
    intro q rest hall hq
    have hc : p c = true := hall c (List.mem_cons_self _ _)
    have hrec := ih q rest (fun d hd => hall d (List.mem_cons_of_mem _ hd)) hq
    simp [List.takeWhile_cons, List.dropWhile_cons, hc, hrec.1, hrec.2]

/-- Running a sequenced parsing computation whose first step succeeds. -/
theorem parserm_seq {α β : Type} (p : ParserM α) (f : α → ParserM β)
    {input i1 : List Char} {a : α} {out : Except String (β × List Char)}
    (hp : p input = Except.ok (a, i1)) (hf : f a i1 = out) :
    (p >>= f) input = out := by
  subst hf
  show StateT.bind p f input = f a i1
  unfold StateT.bind
  rw [hp]
  rfl

/-- C7 counterexample.  The empty string literal is rejected: the grammar's
`parse_string_value` uses `take_while1`, so both the bare literal and the
claim's INSERT example fail to parse. -/
theorem c7_counterexample :
    is_ok (parse_sql ("INSERT INTO t VALUES (" ++ String.mk [squote, squote] ++ ");")) = false
    ∧ is_ok (parse_string_value.run [squote, squote]) = false :=
  ⟨rfl, rfl⟩

/-- C7 amended.  A string literal is a quote, ONE or more non-quote
characters, and a closing quote: every such literal parses to the enclosed
text, and an INSERT with a one-character literal parses; the empty literal
is not well-formed (see the counterexample). -/
theorem c7_string_literal_amended :
    (∀ (s rest : List Char), s ≠ [] → (∀ c ∈ s, c ≠ squote) →
      parse_string_value.run (squote :: (s ++ squote :: rest))
        = Except.ok (Value.string (String.mk s), rest))
    ∧ parse_sql ("INSERT INTO t VALUES (" ++ String.mk [squote, 'a', squote] ++ ");")
      = Except.ok (SqlStatement.insert (InsertStatement.mk "t" [Value.string "a"]), []) := by
  constructor
  · intro s rest hne hq
    have hall : ∀ c ∈ s, (c != squote) = true := fun c hc => by simpa using hq c hc
    have hqf : (squote != squote) = false := by simp
    obtain ⟨ht, hd⟩ := takeWhile_dropWhile_append s squote rest hall hqf
    have h1 : pchar squote (squote :: (s ++ squote :: rest))
        = Except.ok (squote, s ++ squote :: rest) := by simp [pchar]
    have h2 : take_while1 (fun c => c != squote) (s ++ squote :: rest)
        = Except.ok (s, squote :: rest) := by
      cases s with
      | nil => exact absurd rfl hne
      | cons c cs =>
        simp only [List.cons_append] at ht hd
        simp [take_while1, ht, hd]
    have h3 : pchar squote (squote :: rest) = Except.ok (squote, rest) := by simp [pchar]
    have hdel : delimitedP (pchar squote) (take_while1 fun c => c != squote) (pchar squote)
        (squote :: (s ++ squote :: rest)) = Except.ok (s, rest) := by
      unfold delimitedP
      exact parserm_seq _ _ h1 (parserm_seq _ _ h2 (parserm_seq _ _ h3 rfl))
    show parse_string_value (squote :: (s ++ squote :: rest))
        = Except.ok (Value.string (String.mk s), rest)
    unfold parse_string_value
    exact parserm_seq _ _ hdel rfl
  · rfl

/-- C7 witness. -/
theorem c7_witness :
    parse_string_value.run (squote :: (['a'] ++ squote :: []))
      = Except.ok (Value.string (String.mk ['a']), []) :=
  c7_string_literal_amended.1 ['a'] [] (by decide) (by decide)

end Abcsql
